import Mathlib

/-!
Verification of the Hasura event/action dispatch engine of
`src/packages/hasura/src/hasura.module.ts`.

The dispatcher receives dynamically-typed JSON payloads, so we embed the
relevant fragment of the JavaScript value model (truthiness, `typeof`,
optional chaining, template-literal string coercion) and translate the
source functions over it.
-/

namespace Hasura

/-- JavaScript runtime values, as far as the dispatcher inspects them.
Objects are finite association lists of string-keyed fields. -/
inductive JsValue : Type where
  | undefined : JsValue
  | null : JsValue
  | bool : Bool → JsValue
  | num : Int → JsValue
  | str : String → JsValue
  | obj : List (String × JsValue) → JsValue

/-- First-match field lookup in an object literal (JS object keys are unique). -/
def lookupField : List (String × JsValue) → String → JsValue
  | [], _ => JsValue.undefined
  | (k, v) :: rest, key => if k == key then v else lookupField rest key

/-- Property access `v.key`, total like optional chaining `v?.key`: absent
fields and access on non-objects yield `undefined`.  The source only accesses
fields on payload objects or behind `?.`, so this matches its use sites. -/
def getField : JsValue → String → JsValue
  | JsValue.obj fields, key => lookupField fields key
  | _, _ => JsValue.undefined

/-- JavaScript truthiness. -/
def truthy : JsValue → Bool
  | JsValue.undefined => false
  | JsValue.null => false
  | JsValue.bool b => b
  | JsValue.num n => !(n == 0)
  | JsValue.str s => !(s == "")
  | JsValue.obj _ => true

/-- The JavaScript `typeof` operator (note that applying it to the null value yields the string object). -/
def typeofJs : JsValue → String
  | JsValue.undefined => "undefined"
  | JsValue.null => "object"
  | JsValue.bool _ => "boolean"
  | JsValue.num _ => "number"
  | JsValue.str _ => "string"
  | JsValue.obj _ => "object"

/-- Template-literal coercion of a value to a string. -/
def jsToString : JsValue → String
  | JsValue.undefined => "undefined"
  | JsValue.null => "null"
  | JsValue.bool b => if b then "true" else "false"
  | JsValue.num n => toString n
  | JsValue.str s => s
  | JsValue.obj _ => "[object Object]"

/-- Source `isHasuraEvent`: truthy `value.id`, and `typeof` of `value.table`
and of `value.trigger` both equal to the string object. -/
def isHasuraEvent (value : JsValue) : Bool :=
  truthy (getField value "id") &&
  typeofJs (getField value "table") == "object" &&
  typeofJs (getField value "trigger") == "object"

/-- Source `isHasuraScheduledEventPayload`: truthy `value.id`, `value.name`
and `value.scheduled_time`, and `typeof` of `value.payload` equal to the
string object. -/
def isHasuraScheduledEventPayload (value : JsValue) : Bool :=
  truthy (getField value "id") &&
  truthy (getField value "name") &&
  truthy (getField value "scheduled_time") &&
  typeofJs (getField value "payload") == "object"

/-- Candidate routing keys computed by `handleEvent`:
table events get `[evt.trigger?.name, ` then the template string
`schema-name` with no schema defaulting; scheduled events get `[evt.name]`;
anything else is unclassifiable (`null` keys in the source). -/
def classifyKeys (evt : JsValue) : Option (List JsValue) :=
  if isHasuraEvent evt then
    some [getField (getField evt "trigger") "name",
          JsValue.str (jsToString (getField (getField evt "table") "schema") ++ "-" ++
                       jsToString (getField (getField evt "table") "name"))]
  else if isHasuraScheduledEventPayload evt then
    some [getField evt "name"]
  else
    none

/-- Rendering of the `keys` array inside the template string
`Handler not found for ...`: JS `Array.prototype.toString` joins elements
with commas and renders `undefined` and `null` as the empty string. -/
def jsElementToString : JsValue → String
  | JsValue.undefined => ""
  | JsValue.null => ""
  | v => jsToString v

/-- JS array-to-string coercion used by the template literal on `keys`. -/
def arrayToString (keys : List JsValue) : String :=
  String.intercalate "," (keys.map jsElementToString)

/-- SameValueZero membership test `keys.includes(x.key)` where `x.key` is a
string: only string elements can be equal to it. -/
def jsIncludesStr (keys : List JsValue) (k : String) : Bool :=
  keys.any fun v =>
    match v with
    | JsValue.str s => s == k
    | _ => false

/-- Source `table` field of `HasuraEventHandlerConfig`:
`{ schema?: string; name: string }`. -/
structure TableMapping : Type where
  schema : Option String
  name : String

/-- Source `HasuraEventHandlerConfig`: `triggerName?: string`,
`table?: { schema?: string; name: string }`. -/
structure HasuraEventHandlerConfig : Type where
  triggerName : Option String
  table : Option TableMapping

/-- Truthiness of an optional string field (absent or empty is falsy). -/
def strTruthy : Option String → Bool
  | none => false
  | some s => !(s == "")

/-- Truthiness of the optional `table` object (any object is truthy). -/
def tableTruthy : Option TableMapping → Bool
  | none => false
  | some _ => true

/-- Template string over the table mapping from the source key computation:
the schema position is the ternary on `config.table?.schema` defaulting to public
and the name position is `config.table?.name` coerced by the template. -/
def tableDerivedKey : Option TableMapping → String
  | some t =>
      (match t.schema with
       | some s => if s == "" then "public" else s
       | none => "public") ++ "-" ++ t.name
  | none => "public-undefined"

/-- Source registration key: `config.triggerName || template`, with JS `||`
falling through on a falsy (absent or empty) trigger name. -/
def bindingKey (config : HasuraEventHandlerConfig) : String :=
  match config.triggerName with
  | some t => if t == "" then tableDerivedKey config.table else t
  | none => tableDerivedKey config.table

/-- One discovered event-handler method together with its metadata, as
returned by `providerMethodsWithMetaAtKey` and grouped by parent class. -/
structure DiscoveredEventHandler (H : Type) : Type where
  parentClassName : String
  methodName : String
  config : HasuraEventHandlerConfig
  handler : H

/-- One `{ key, handler }` entry of the flat handler table. -/
structure EventHandler (H : Type) : Type where
  key : String
  handler : H

/-- Group keys in order of first occurrence, as lodash `groupBy` followed by
`Object.keys` enumerates them (string keys iterate in insertion order). -/
def groupOrderKeys (f : α → String) : List α → List String
  | [] => []
  | x :: xs => f x :: (groupOrderKeys f xs).filter (fun k => !(k == f x))

/-- lodash `groupBy` + `Object.keys(...).map` + `flatten`: concatenate the
per-class sublists, classes in first-occurrence order, members in
discovery order. -/
def flattenGrouped (f : α → String) (l : List α) : List α :=
  (groupOrderKeys f l).flatMap fun k => l.filter fun x => f x == k

/-- Message of the startup error thrown for a binding with neither
trigger name nor table mapping. -/
def invalidBindingMessage : String :=
  "Hasura Event Handler is invalid. Specify either trigger name or table mapping"

/-- Per-binding body of the registration map in
`configureHasuraEventHandlers`: throw when `!config.table &&
!config.triggerName`, otherwise emit the `{ key, handler }` entry. -/
def checkedBinding (d : DiscoveredEventHandler H) : Except String (EventHandler H) :=
  if !tableTruthy d.config.table && !strTruthy d.config.triggerName then
    Except.error invalidBindingMessage
  else
    Except.ok ⟨bindingKey d.config, d.handler⟩

/-- The event handler-table build of `configureHasuraEventHandlers`:
group discovered metadata by parent class, flatten, and register each
binding, propagating the first thrown configuration error. -/
def configureHasuraEventHandlers (l : List (DiscoveredEventHandler H)) :
    Except String (List (EventHandler H)) :=
  (flattenGrouped (fun d => d.parentClassName) l).mapM checkedBinding

/-- Errors thrown by `handleEvent`: the classification failure
`new Error` carrying the message Not a Hasura Event, and the transport-visible
`BadRequestException` carrying its message. -/
inductive DispatchError : Type where
  | notEvent : DispatchError
  | badRequest : String → DispatchError
deriving DecidableEq

/-- Source `handleEvent` up to the `Promise.all` call: classify the payload,
filter the flat handler table by candidate-key membership, and either throw
`BadRequestException` on zero matches or return the matched handlers (in
table order) that `Promise.all` will invoke. -/
def handleEvent (eventHandlers : List (EventHandler H)) (evt : JsValue) :
    Except DispatchError (List H) :=
  match classifyKeys evt with
  | none => Except.error DispatchError.notEvent
  | some keys =>
      let handlers := eventHandlers.filter fun x => jsIncludesStr keys x.key
      if handlers.isEmpty then
        Except.error (DispatchError.badRequest ("Handler not found for " ++ arrayToString keys))
      else
        Except.ok (handlers.map fun x => x.handler)

/-- Outcome of one already-launched handler promise: an abstract settle time
together with fulfillment value or rejection reason. -/
abbrev TimedOutcome : Type := Nat × Except JsValue JsValue

/-- Event handlers as invoked by `Promise.all(handlers.map((x) => x.handler(evt)))`:
each application yields a timed promise outcome. -/
abbrev EventHandlerFn : Type := JsValue → TimedOutcome

/-- Earliest rejection among the outcomes (list order breaks ties), the
rejection ECMAScript `Promise.all` settles with when one exists. -/
def firstRejection : List (Nat × Except ε α) → Option (Nat × ε)
  | [] => none
  | x :: rest =>
      match x.2 with
      | Except.ok _ => firstRejection rest
      | Except.error e =>
          match firstRejection rest with
          | none => some (x.1, e)
          | some (u, f) => if u < x.1 then some (u, f) else some (x.1, e)

/-- Fulfillment values in input order. -/
def fulfilledValues (xs : List (Nat × Except ε α)) : List α :=
  xs.filterMap fun x => x.2.toOption

/-- Settle time of a fully fulfilled combination: all inputs must fulfill. -/
def settledTime (xs : List (Nat × Except ε α)) : Nat :=
  xs.foldl (fun acc x => Nat.max acc x.1) 0

/-- Model of ECMAScript `Promise.all` over determined timed outcomes: it
rejects with the earliest rejection as soon as that rejection settles, and
otherwise fulfills with every value, in input order, once all inputs have
settled.  The remaining promises keep running; they are not cancelled and
not awaited on the rejection path. -/
def promiseAll (xs : List (Nat × Except ε α)) : Nat × Except ε (List α) :=
  match firstRejection xs with
  | some (t, e) => (t, Except.error e)
  | none => (settledTime xs, Except.ok (fulfilledValues xs))

/-- Full event dispatch: `handleEvent` followed by
`Promise.all(handlers.map((x) => x.handler(evt)))`. -/
def dispatchEvent (eventHandlers : List (EventHandler EventHandlerFn)) (evt : JsValue) :
    Except DispatchError (Nat × Except JsValue (List JsValue)) :=
  (handleEvent eventHandlers evt).map fun hs => promiseAll (hs.map fun h => h evt)

/-- Nested `action` field of an action invocation (`action.action.name`). -/
structure ActionIdent : Type where
  name : String

/-- Action invocation payload as consumed by `handleAction`:
`action.action.name` selects the handler, `action.input` and the whole
action value are passed to it. -/
structure HasuraAction : Type where
  action : ActionIdent
  input : JsValue

/-- HTTP headers forwarded to action handlers. -/
abbrev Headers : Type := List (String × String)

/-- Bound action-handler invoker: called as `handler(action.input, action, headers)`. -/
abbrev ActionHandlerFn : Type := JsValue → HasuraAction → Headers → JsValue

/-- One discovered action-handler method with its metadata (the metadata of
an action handler is the action name). -/
structure DiscoveredActionHandler (H : Type) : Type where
  parentClassName : String
  methodName : String
  actionName : String
  handler : H

/-- The action handler-table build of `configureHasuraActionHandlers`:
group by parent class, flatten, and pair each action name with its bound
invoker.  No validation is performed (the source has a TODO noting that
duplicates are not detected). -/
def configureHasuraActionHandlers (l : List (DiscoveredActionHandler H)) :
    List (String × H) :=
  (flattenGrouped (fun d => d.parentClassName) l).map fun d => (d.actionName, d.handler)

/-- Lookup in `new Map(actionHandlers)`: the Map constructor sets entries in
list order, so a later entry with the same key overwrites an earlier one
and `get` returns the last matching entry. -/
def jsMapGet (entries : List (String × H)) (k : String) : Option H :=
  entries.foldl (fun acc e => if e.1 == k then some e.2 else acc) none

/-- Source `handleAction`: look up the handler by exact `action.action.name`;
throw `BadRequestException` when absent, otherwise return
`handler(action.input, action, headers)` unmodified. -/
def handleAction (entries : List (String × ActionHandlerFn)) (action : HasuraAction)
    (headers : Headers) : Except DispatchError JsValue :=
  match jsMapGet entries action.action.name with
  | none =>
      Except.error (DispatchError.badRequest
        ("Handler not found for action: " ++ action.action.name))
  | some handler => Except.ok (handler action.input action headers)

/-! Concrete payloads and handlers used to instantiate the theorems. -/

/-- A table event with schema `s`, table name `n` and trigger name `other`. -/
def evtTableSN : JsValue := JsValue.obj
  [("id", JsValue.str "1"),
   ("table", JsValue.obj [("schema", JsValue.str "s"), ("name", JsValue.str "n")]),
   ("trigger", JsValue.obj [("name", JsValue.str "other")])]

/-- A payload with truthy `id` and literal `null` for `table` and `trigger`. -/
def evtNullTableTrigger : JsValue := JsValue.obj
  [("id", JsValue.str "1"), ("table", JsValue.null), ("trigger", JsValue.null)]

/-- A scheduled-event payload named `k`. -/
def evtScheduledK : JsValue := JsValue.obj
  [("id", JsValue.str "1"), ("name", JsValue.str "k"),
   ("scheduled_time", JsValue.str "tm"), ("payload", JsValue.obj [])]

/-- A table event whose trigger name is `x` and whose table is `a.b`,
so its table-derived candidate key is `a-b`. -/
def evtTriggerXTableAB : JsValue := JsValue.obj
  [("id", JsValue.str "1"),
   ("table", JsValue.obj [("schema", JsValue.str "a"), ("name", JsValue.str "b")]),
   ("trigger", JsValue.obj [("name", JsValue.str "x")])]

/-- A binding configuration with both `triggerName` and `table` set. -/
def cfgBothSet : HasuraEventHandlerConfig := ⟨some "t", some ⟨some "s", "n"⟩⟩

/-- A table event on table `s.n` whose trigger name is `t`. -/
def evtTriggerT : JsValue := JsValue.obj
  [("id", JsValue.str "1"),
   ("table", JsValue.obj [("schema", JsValue.str "s"), ("name", JsValue.str "n")]),
   ("trigger", JsValue.obj [("name", JsValue.str "t")])]

/-- A handler that fulfills at time 5. -/
def handlerFulfillAt5 : EventHandlerFn := fun _ => (5, Except.ok (JsValue.str "a"))

/-- A handler that rejects at time 1. -/
def handlerRejectAt1 : EventHandlerFn := fun _ => (1, Except.error (JsValue.str "boom"))

/-- A handler fulfilling immediately with the number 1. -/
def handlerOne : EventHandlerFn := fun _ => (0, Except.ok (JsValue.num 1))

/-- A handler fulfilling immediately with the number 2. -/
def handlerTwo : EventHandlerFn := fun _ => (0, Except.ok (JsValue.num 2))

/-- An action handler returning the number 1. -/
def actionHandlerOne : ActionHandlerFn := fun _ _ _ => JsValue.num 1

/-- An action handler returning the number 2. -/
def actionHandlerTwo : ActionHandlerFn := fun _ _ _ => JsValue.num 2

/-! Helper lemmas about the embedded operations. -/

theorem isHasuraEvent_iff (v : JsValue) :
    isHasuraEvent v = true ↔
      truthy (getField v "id") = true ∧
      typeofJs (getField v "table") = "object" ∧
      typeofJs (getField v "trigger") = "object" := by
  simp [isHasuraEvent, Bool.and_eq_true, beq_iff_eq, and_assoc]

theorem isHasuraScheduledEventPayload_iff (v : JsValue) :
    isHasuraScheduledEventPayload v = true ↔
      truthy (getField v "id") = true ∧
      truthy (getField v "name") = true ∧
      truthy (getField v "scheduled_time") = true ∧
      typeofJs (getField v "payload") = "object" := by
  simp [isHasuraScheduledEventPayload, Bool.and_eq_true, beq_iff_eq, and_assoc]

theorem mem_groupOrderKeys (f : α → String) (l : List α) (x : α) (hx : x ∈ l) :
    f x ∈ groupOrderKeys f l := by
  induction l with
  | nil => cases hx
  | cons a l ih =>
      rcases List.mem_cons.mp hx with h | h
      · subst h; exact List.mem_cons_self _ _
      · by_cases hk : f x = f a
        · rw [hk]; exact List.mem_cons_self _ _
        · refine List.mem_cons_of_mem _ ?_
          refine List.mem_filter.mpr ⟨ih h, ?_⟩
          simp [hk]

theorem mem_flattenGrouped (f : α → String) (l : List α) (x : α) (hx : x ∈ l) :
    x ∈ flattenGrouped f l := by
  refine List.mem_flatMap.mpr ⟨f x, mem_groupOrderKeys f l x hx, ?_⟩
  exact List.mem_filter.mpr ⟨hx, by simp⟩

theorem groupOrderKeys_const (f : α → String) (c : String) :
    ∀ (l : List α), l ≠ [] → (∀ x ∈ l, f x = c) → groupOrderKeys f l = [c]
  | [], h, _ => absurd rfl h
  | a :: l, _, hall => by
      have ha : f a = c := hall a (List.mem_cons_self _ _)
      rcases eq_or_ne l [] with hnil | hnil
      · subst hnil; simp [groupOrderKeys, ha]
      · have hrec : groupOrderKeys f l = [c] :=
          groupOrderKeys_const f c l hnil (fun x hx => hall x (List.mem_cons_of_mem _ hx))
        simp [groupOrderKeys, hrec, ha]

theorem flattenGrouped_const (f : α → String) (c : String) (l : List α)
    (hne : l ≠ []) (hall : ∀ x ∈ l, f x = c) : flattenGrouped f l = l := by
  rw [flattenGrouped, groupOrderKeys_const f c l hne hall]
  simp only [List.flatMap_cons, List.flatMap_nil, List.append_nil]
  rw [List.filter_eq_self.mpr]
  intro a ha
  simp [hall a ha]

theorem checkedBinding_error_eq {d : DiscoveredEventHandler H} {e : String}
    (h : checkedBinding d = Except.error e) : e = invalidBindingMessage := by
  unfold checkedBinding at h
  by_cases hc : (!tableTruthy d.config.table && !strTruthy d.config.triggerName) = true
  · rw [if_pos hc] at h; cases h; rfl
  · rw [if_neg hc] at h; cases h

theorem mapM_checkedBinding_error {l : List (DiscoveredEventHandler H)}
    {d : DiscoveredEventHandler H} (hd : d ∈ l)
    (he : checkedBinding d = Except.error invalidBindingMessage) :
    l.mapM checkedBinding = Except.error invalidBindingMessage := by
  induction l with
  | nil => cases hd
  | cons a l ih =>
      rw [List.mapM_cons]
      cases hca : checkedBinding a with
      | error e =>
          have heq : e = invalidBindingMessage := checkedBinding_error_eq hca
          subst heq
          rfl
      | ok b =>
          rcases List.mem_cons.mp hd with h | h
          · subst h; rw [hca] at he; cases he
          · rw [ih h]; rfl

theorem firstRejection_cons_ok {x : Nat × Except ε α} {v : α}
    (h : x.2 = Except.ok v) (xs : List (Nat × Except ε α)) :
    firstRejection (x :: xs) = firstRejection xs := by
  simp [firstRejection, h]

theorem firstRejection_cons_error_none {x : Nat × Except ε α} {e : ε}
    {xs : List (Nat × Except ε α)} (h : x.2 = Except.error e)
    (hr : firstRejection xs = none) :
    firstRejection (x :: xs) = some (x.1, e) := by
  simp [firstRejection, h, hr]

theorem firstRejection_cons_error_some {x : Nat × Except ε α} {e f : ε} {u : Nat}
    {xs : List (Nat × Except ε α)} (h : x.2 = Except.error e)
    (hr : firstRejection xs = some (u, f)) :
    firstRejection (x :: xs) =
      if u < x.1 then some (u, f) else some (x.1, e) := by
  simp [firstRejection, h, hr]

theorem firstRejection_eq_none {xs : List (Nat × Except ε α)}
    (h : ∀ x ∈ xs, x.2.isOk = true) : firstRejection xs = none := by
  induction xs with
  | nil => rfl
  | cons a xs ih =>
      have ha := h a (List.mem_cons_self _ _)
      cases hv : a.2 with
      | ok v =>
          rw [firstRejection_cons_ok hv,
            ih fun x hx => h x (List.mem_cons_of_mem _ hx)]
      | error g => rw [hv] at ha; cases ha

theorem firstRejection_none_all_ok {xs : List (Nat × Except ε α)}
    (h : firstRejection xs = none) : ∀ x ∈ xs, x.2.isOk = true := by
  induction xs with
  | nil => intro x hx; cases hx
  | cons a xs ih =>
      intro x hx
      cases hv : a.2 with
      | ok v =>
          rw [firstRejection_cons_ok hv] at h
          rcases List.mem_cons.mp hx with hxa | hxs
          · subst hxa; rw [hv]; rfl
          · exact ih h x hxs
      | error g =>
          cases hr : firstRejection xs with
          | none => rw [firstRejection_cons_error_none hv hr] at h; cases h
          | some p =>
              obtain ⟨u, f⟩ := p
              rw [firstRejection_cons_error_some hv hr] at h
              by_cases hu : u < a.1
              · rw [if_pos hu] at h; cases h
              · rw [if_neg hu] at h; cases h

theorem firstRejection_mem {xs : List (Nat × Except ε α)} {t : Nat} {e : ε}
    (h : firstRejection xs = some (t, e)) :
    ∃ x ∈ xs, x.1 = t ∧ x.2 = Except.error e := by
  induction xs with
  | nil => cases h
  | cons a xs ih =>
      cases hv : a.2 with
      | ok v =>
          rw [firstRejection_cons_ok hv] at h
          obtain ⟨x, hx, hx1, hx2⟩ := ih h
          exact ⟨x, List.mem_cons_of_mem _ hx, hx1, hx2⟩
      | error g =>
          cases hr : firstRejection xs with
          | none =>
              rw [firstRejection_cons_error_none hv hr] at h
              simp only [Option.some.injEq, Prod.mk.injEq] at h
              exact ⟨a, List.mem_cons_self _ _, h.1, by rw [hv, h.2]⟩
          | some p =>
              obtain ⟨u, f⟩ := p
              rw [firstRejection_cons_error_some hv hr] at h
              by_cases hu : u < a.1
              · rw [if_pos hu] at h
                simp only [Option.some.injEq, Prod.mk.injEq] at h
                obtain ⟨h1, h2⟩ := h
                subst h1; subst h2
                obtain ⟨x, hx, hx1, hx2⟩ := ih hr
                exact ⟨x, List.mem_cons_of_mem _ hx, hx1, hx2⟩
              · rw [if_neg hu] at h
                simp only [Option.some.injEq, Prod.mk.injEq] at h
                exact ⟨a, List.mem_cons_self _ _, h.1, by rw [hv, h.2]⟩

theorem firstRejection_min {xs : List (Nat × Except ε α)} {t : Nat} {e : ε}
    (h : firstRejection xs = some (t, e)) :
    ∀ x ∈ xs, ∀ f : ε, x.2 = Except.error f → t ≤ x.1 := by
  revert h
  induction xs generalizing t e with
  | nil => intro h; cases h
  | cons a xs ih =>
      intro h x hx f hf
      cases hv : a.2 with
      | ok v =>
          rw [firstRejection_cons_ok hv] at h
          rcases List.mem_cons.mp hx with hxa | hxs
          · subst hxa; rw [hf] at hv; cases hv
          · exact ih h x hxs f hf
      | error g =>
          cases hr : firstRejection xs with
          | none =>
              rw [firstRejection_cons_error_none hv hr] at h
              simp only [Option.some.injEq, Prod.mk.injEq] at h
              rcases List.mem_cons.mp hx with hxa | hxs
              · subst hxa; exact Nat.le_of_eq h.1.symm
              · have hok := firstRejection_none_all_ok hr x hxs
                rw [hf] at hok; cases hok
          | some p =>
              obtain ⟨u, f2⟩ := p
              rw [firstRejection_cons_error_some hv hr] at h
              by_cases hu : u < a.1
              · rw [if_pos hu] at h
                simp only [Option.some.injEq, Prod.mk.injEq] at h
                obtain ⟨h1, h2⟩ := h
                subst h1; subst h2
                rcases List.mem_cons.mp hx with hxa | hxs
                · subst hxa; exact Nat.le_of_lt hu
                · exact ih hr x hxs f hf
              · rw [if_neg hu] at h
                simp only [Option.some.injEq, Prod.mk.injEq] at h
                rcases List.mem_cons.mp hx with hxa | hxs
                · subst hxa; exact Nat.le_of_eq h.1.symm
                · have hmin := ih hr x hxs f hf
                  have ht : t = a.1 := h.1.symm
                  rw [ht]
                  exact Nat.le_trans (Nat.le_of_not_lt hu) hmin

theorem fulfilledValues_append (xs ys : List (Nat × Except ε α)) :
    fulfilledValues (xs ++ ys) = fulfilledValues xs ++ fulfilledValues ys := by
  simp [fulfilledValues, List.filterMap_append]

theorem fulfilledValues_cons_ok {x : Nat × Except ε α} {v : α}
    (h : x.2 = Except.ok v) (xs : List (Nat × Except ε α)) :
    fulfilledValues (x :: xs) = v :: fulfilledValues xs := by
  simp [fulfilledValues, List.filterMap_cons, h, Except.toOption]

theorem handleEvent_no_match {H : Type} {table : List (EventHandler H)} {evt : JsValue}
    {keys : List JsValue} (hc : classifyKeys evt = some keys)
    (hnone : ∀ b ∈ table, jsIncludesStr keys b.key = false) :
    handleEvent table evt =
      Except.error (DispatchError.badRequest ("Handler not found for " ++ arrayToString keys)) := by
  have hfil : table.filter (fun x => jsIncludesStr keys x.key) = [] :=
    List.filter_eq_nil_iff.mpr fun b hb => by rw [hnone b hb]; exact Bool.false_ne_true
  simp [handleEvent, hc, hfil]

theorem handleEvent_matched {H : Type} {table : List (EventHandler H)} {evt : JsValue}
    {keys : List JsValue} (hc : classifyKeys evt = some keys)
    (hne : table.filter (fun x => jsIncludesStr keys x.key) ≠ []) :
    handleEvent table evt =
      Except.ok ((table.filter fun x => jsIncludesStr keys x.key).map fun x => x.handler) := by
  have hie : (table.filter fun x => jsIncludesStr keys x.key).isEmpty = false := by
    cases hl : (table.filter fun x => jsIncludesStr keys x.key).isEmpty
    · rfl
    · exact absurd (List.isEmpty_iff.mp hl) hne
  simp [handleEvent, hc, hie]

theorem handleEvent_singleton_isOk {H : Type} (b : EventHandler H) {evt : JsValue}
    {keys : List JsValue} (hc : classifyKeys evt = some keys) :
    (handleEvent [b] evt).isOk = jsIncludesStr keys b.key := by
  cases hp : jsIncludesStr keys b.key
  · rw [handleEvent_no_match hc (fun x hx => by
      rcases List.mem_cons.mp hx with rfl | hfalse
      · exact hp
      · cases hfalse)]
    rfl
  · have hfil : [b].filter (fun x => jsIncludesStr keys x.key) = [b] := by
      simp [List.filter_cons, hp]
    rw [handleEvent_matched hc (by rw [hfil]; exact List.cons_ne_nil _ _)]
    rfl

theorem jsIncludesStr_pair (k1 : JsValue) (s2 k : String) :
    jsIncludesStr [k1, JsValue.str s2] k = true ↔ (k1 = JsValue.str k ∨ s2 = k) := by
  cases k1 <;> simp [jsIncludesStr, beq_iff_eq]

theorem jsMapGet_foldl_no_match {l : List (String × H)} {k : String}
    (h : ∀ e ∈ l, e.1 ≠ k) (acc : Option H) :
    l.foldl (fun acc e => if e.1 == k then some e.2 else acc) acc = acc := by
  induction l generalizing acc with
  | nil => rfl
  | cons a l ih =>
      rw [List.foldl_cons]
      have ha : a.1 ≠ k := h a (List.mem_cons_self _ _)
      rw [if_neg (by simpa using ha)]
      exact ih (fun e he => h e (List.mem_cons_of_mem _ he)) acc

theorem jsMapGet_last {pre post : List (String × H)} {k : String} {h : H}
    (hpost : ∀ e ∈ post, e.1 ≠ k) :
    jsMapGet (pre ++ (k, h) :: post) k = some h := by
  unfold jsMapGet
  rw [List.foldl_append, List.foldl_cons]
  rw [if_pos (by simp)]
  exact jsMapGet_foldl_no_match hpost _

/-! Claim theorems. -/

/-- Claim C3 (confirmed): classification follows the priority order of the
source — a payload with truthy `id` and object-typed `table` and `trigger`
is a table event with candidate keys `[trigger?.name, "schema-name"]`
(schema is not defaulted to `public` here); otherwise a payload with truthy
`id`, `name` and `scheduled_time` and an object-typed `payload` is a
scheduled event with candidate key `[name]`; otherwise `handleEvent` throws
the classification error `Not a Hasura Event`. -/
theorem classificationPriority (v : JsValue) :
    (truthy (getField v "id") = true →
     typeofJs (getField v "table") = "object" →
     typeofJs (getField v "trigger") = "object" →
     classifyKeys v = some [getField (getField v "trigger") "name",
       JsValue.str (jsToString (getField (getField v "table") "schema") ++ "-" ++
                    jsToString (getField (getField v "table") "name"))]) ∧
    (isHasuraEvent v = false →
     truthy (getField v "id") = true →
     truthy (getField v "name") = true →
     truthy (getField v "scheduled_time") = true →
     typeofJs (getField v "payload") = "object" →
     classifyKeys v = some [getField v "name"]) ∧
    (isHasuraEvent v = false → isHasuraScheduledEventPayload v = false →
     ∀ (H : Type) (table : List (EventHandler H)),
       handleEvent table v = Except.error DispatchError.notEvent) := by
  refine ⟨?_, ?_, ?_⟩
  · intro h1 h2 h3
    have hev : isHasuraEvent v = true := (isHasuraEvent_iff v).mpr ⟨h1, h2, h3⟩
    simp [classifyKeys, hev]
  · intro hev h1 h2 h3 h4
    have hsch : isHasuraScheduledEventPayload v = true :=
      (isHasuraScheduledEventPayload_iff v).mpr ⟨h1, h2, h3, h4⟩
    simp [classifyKeys, hev, hsch]
  · intro hev hsch H table
    simp [handleEvent, classifyKeys, hev, hsch]

/-- Witness for C3: a concrete table event, a concrete scheduled event and a
shapeless payload hit the three classification branches. -/
theorem classificationPriorityWitness :
    classifyKeys evtTableSN = some [JsValue.str "other", JsValue.str "s-n"] ∧
    classifyKeys evtScheduledK = some [JsValue.str "k"] ∧
    handleEvent ([] : List (EventHandler Nat)) (JsValue.obj []) =
      Except.error DispatchError.notEvent :=
  ⟨(classificationPriority evtTableSN).1 rfl rfl rfl,
   (classificationPriority evtScheduledK).2.1 rfl rfl rfl rfl rfl,
   (classificationPriority (JsValue.obj [])).2.2 rfl rfl Nat []⟩

/-- Claim C4 (confirmed): a successfully classified event whose candidate
keys match no registered binding makes `handleEvent` throw a
`BadRequestException` whose message names the attempted keys; the error is
raised instead of returning handlers, so no handler is invoked. -/
theorem unmatchedKeysRejectedBadRequest (H : Type) (table : List (EventHandler H))
    (evt : JsValue) (keys : List JsValue)
    (hc : classifyKeys evt = some keys)
    (hnone : ∀ b ∈ table, jsIncludesStr keys b.key = false) :
    handleEvent table evt =
      Except.error (DispatchError.badRequest
        ("Handler not found for " ++ arrayToString keys)) :=
  handleEvent_no_match hc hnone

/-- Witness for C4: a table event against a table with one unrelated key. -/
theorem unmatchedKeysRejectedBadRequestWitness :
    handleEvent [(⟨"unrelated", 0⟩ : EventHandler Nat)] evtTableSN =
      Except.error (DispatchError.badRequest
        ("Handler not found for " ++ arrayToString [JsValue.str "other", JsValue.str "s-n"])) :=
  unmatchedKeysRejectedBadRequest Nat [⟨"unrelated", 0⟩] evtTableSN
    [JsValue.str "other", JsValue.str "s-n"] rfl
    (fun b hb => by
      rcases List.mem_cons.mp hb with rfl | hfalse
      · rfl
      · cases hfalse)

/-- Claim C5 (confirmed): a discovered binding with neither `table` nor
`triggerName` set makes the event handler-table build throw the
configuration error, aborting initialization before any handler table is
produced. -/
theorem missingBindingAbortsStartup (H : Type) (l : List (DiscoveredEventHandler H))
    (d : DiscoveredEventHandler H) (hd : d ∈ l)
    (ht : tableTruthy d.config.table = false)
    (hn : strTruthy d.config.triggerName = false) :
    configureHasuraEventHandlers l = Except.error invalidBindingMessage := by
  have he : checkedBinding d = Except.error invalidBindingMessage := by
    simp [checkedBinding, ht, hn]
  unfold configureHasuraEventHandlers
  exact mapM_checkedBinding_error (mem_flattenGrouped _ l d hd) he

/-- Witness for C5: a single binding with both fields absent aborts the build. -/
theorem missingBindingAbortsStartupWitness :
    configureHasuraEventHandlers
        [(⟨"Cls", "m", ⟨none, none⟩, 0⟩ : DiscoveredEventHandler Nat)] =
      Except.error invalidBindingMessage :=
  missingBindingAbortsStartup Nat [⟨"Cls", "m", ⟨none, none⟩, 0⟩]
    ⟨"Cls", "m", ⟨none, none⟩, 0⟩ (List.mem_cons_self _ _) rfl rfl

/-- Claim C7 (confirmed): `handleAction` looks up the handler by exact
`action.action.name`; when absent it throws a `BadRequestException` naming
the action, and when present it returns the result of the single handler on
`(action.input, action, headers)` unmodified — no fan-out, no aggregation. -/
theorem actionDispatchExactName (entries : List (String × ActionHandlerFn))
    (action : HasuraAction) (headers : Headers) :
    (jsMapGet entries action.action.name = none →
      handleAction entries action headers =
        Except.error (DispatchError.badRequest
          ("Handler not found for action: " ++ action.action.name))) ∧
    (∀ h : ActionHandlerFn, jsMapGet entries action.action.name = some h →
      handleAction entries action headers = Except.ok (h action.input action headers)) := by
  constructor
  · intro hn; simp [handleAction, hn]
  · intro h hs; simp [handleAction, hs]

/-- Witness for C7: a registered name invokes the single handler; an
unregistered name is rejected. -/
theorem actionDispatchExactNameWitness :
    handleAction [("act", actionHandlerOne)] ⟨⟨"act"⟩, JsValue.null⟩ [] =
      Except.ok (actionHandlerOne JsValue.null ⟨⟨"act"⟩, JsValue.null⟩ []) ∧
    handleAction [("act", actionHandlerOne)] ⟨⟨"other"⟩, JsValue.null⟩ [] =
      Except.error (DispatchError.badRequest
        ("Handler not found for action: " ++ "other")) :=
  ⟨(actionDispatchExactName [("act", actionHandlerOne)] ⟨⟨"act"⟩, JsValue.null⟩ []).2
      actionHandlerOne rfl,
   (actionDispatchExactName [("act", actionHandlerOne)] ⟨⟨"other"⟩, JsValue.null⟩ []).1 rfl⟩

/-- Claim C9 (confirmed): a payload with truthy `id` and literal `null` in
`table` and `trigger` passes the shape check (`typeof` of null is object),
so it classifies as a table event with candidate keys
`[undefined, "undefined-undefined"]`, and — provided no binding is keyed
`undefined-undefined` — dispatch fails with the bad-request handler-not-found
error (whose message renders the keys array as `,undefined-undefined`),
not with the classification error. -/
theorem nullTableTriggerStillDispatches (H : Type) (table : List (EventHandler H))
    (evt : JsValue)
    (hid : truthy (getField evt "id") = true)
    (htab : getField evt "table" = JsValue.null)
    (htr : getField evt "trigger" = JsValue.null)
    (hnk : ∀ b ∈ table, b.key ≠ "undefined-undefined") :
    classifyKeys evt = some [JsValue.undefined, JsValue.str "undefined-undefined"] ∧
    handleEvent table evt =
      Except.error (DispatchError.badRequest "Handler not found for ,undefined-undefined") := by
  have hev : isHasuraEvent evt = true :=
    (isHasuraEvent_iff evt).mpr ⟨hid, by rw [htab]; rfl, by rw [htr]; rfl⟩
  have hc : classifyKeys evt = some [JsValue.undefined, JsValue.str "undefined-undefined"] := by
    simp [classifyKeys, hev, htab, htr]
    exact ⟨rfl, rfl⟩
  refine ⟨hc, ?_⟩
  have hnone : ∀ b ∈ table,
      jsIncludesStr [JsValue.undefined, JsValue.str "undefined-undefined"] b.key = false := by
    intro b hb
    simp [jsIncludesStr, beq_eq_false_iff_ne]
    exact Ne.symm (hnk b hb)
  have hres := handleEvent_no_match hc hnone
  rw [hres]
  rfl

/-- Witness for C9: concrete payload with null `table`/`trigger` and a table
with one unrelated binding. -/
theorem nullTableTriggerStillDispatchesWitness :
    classifyKeys evtNullTableTrigger =
      some [JsValue.undefined, JsValue.str "undefined-undefined"] ∧
    handleEvent [(⟨"k", 0⟩ : EventHandler Nat)] evtNullTableTrigger =
      Except.error (DispatchError.badRequest "Handler not found for ,undefined-undefined") :=
  nullTableTriggerStillDispatches Nat [⟨"k", 0⟩] evtNullTableTrigger rfl rfl rfl
    (fun b hb => by
      rcases List.mem_cons.mp hb with rfl | hfalse
      · decide
      · cases hfalse)

/-- Counterexample for C1: a binding with both `triggerName` and `table`
set registers ONE routing key (the trigger name — `config.triggerName || ...`
short-circuits), not two; an event whose table-derived candidate key `s-n`
equals the table-derived key of the binding is NOT routed to the handler, so
"an incoming event matching either key invokes the handler" is false. -/
theorem dualBindingSingleKeyCounterexample :
    configureHasuraEventHandlers
        [(⟨"Cls", "m", cfgBothSet, 0⟩ : DiscoveredEventHandler Nat)] =
      Except.ok [⟨"t", 0⟩] ∧
    tableDerivedKey cfgBothSet.table = "s-n" ∧
    classifyKeys evtTableSN = some [JsValue.str "other", JsValue.str "s-n"] ∧
    handleEvent [(⟨"t", 0⟩ : EventHandler Nat)] evtTableSN =
      Except.error (DispatchError.badRequest "Handler not found for other,s-n") :=
  ⟨rfl, rfl, rfl, rfl⟩

/-- Claim C1 (corrected): a binding with both `table` and `triggerName` set
registers exactly one routing key — the trigger name; an incoming event
whose candidate keys include the trigger name invokes the handler, and an
event whose candidate keys do not include it (even one matching the
table-derived key) is rejected with handler-not-found. -/
theorem dualBindingRegistersTriggerKeyOnly (cls mth : String)
    (cfg : HasuraEventHandlerConfig) (hl : Nat) (t : String)
    (htn : cfg.triggerName = some t) (hne : t ≠ "")
    (htab : tableTruthy cfg.table = true) :
    configureHasuraEventHandlers [(⟨cls, mth, cfg, hl⟩ : DiscoveredEventHandler Nat)] =
      Except.ok [⟨t, hl⟩] ∧
    ∀ (evt : JsValue) (keys : List JsValue), classifyKeys evt = some keys →
      (jsIncludesStr keys t = true →
        handleEvent [(⟨t, hl⟩ : EventHandler Nat)] evt = Except.ok [hl]) ∧
      (jsIncludesStr keys t = false →
        handleEvent [(⟨t, hl⟩ : EventHandler Nat)] evt =
          Except.error (DispatchError.badRequest
            ("Handler not found for " ++ arrayToString keys))) := by
  constructor
  · have hflat : flattenGrouped (fun d => d.parentClassName)
        [(⟨cls, mth, cfg, hl⟩ : DiscoveredEventHandler Nat)] = [⟨cls, mth, cfg, hl⟩] := by
      simp [flattenGrouped, groupOrderKeys]
    have hcb : checkedBinding (⟨cls, mth, cfg, hl⟩ : DiscoveredEventHandler Nat) =
        Except.ok ⟨t, hl⟩ := by
      simp [checkedBinding, htab, bindingKey, htn, beq_eq_false_iff_ne.mpr hne]
    unfold configureHasuraEventHandlers
    rw [hflat, List.mapM_cons, hcb]
    rfl
  · intro evt keys hc
    constructor
    · intro hin
      have hfil : [(⟨t, hl⟩ : EventHandler Nat)].filter
          (fun x => jsIncludesStr keys x.key) = [⟨t, hl⟩] := by
        simp [List.filter_cons, hin]
      rw [handleEvent_matched hc (by rw [hfil]; exact List.cons_ne_nil _ _), hfil]
      rfl
    · intro hnot
      exact handleEvent_no_match hc (fun b hb => by
        rcases List.mem_cons.mp hb with rfl | hfalse
        · exact hnot
        · cases hfalse)

/-- Witness for C1 (amended): the dual binding `cfgBothSet` registers only
key `t`; a table event whose trigger name is `t` is dispatched to it. -/
theorem dualBindingRegistersTriggerKeyOnlyWitness :
    configureHasuraEventHandlers
        [(⟨"Cls", "m", cfgBothSet, 0⟩ : DiscoveredEventHandler Nat)] =
      Except.ok [⟨"t", 0⟩] ∧
    handleEvent [(⟨"t", 0⟩ : EventHandler Nat)] evtTriggerT = Except.ok [0] := by
  have h := dualBindingRegistersTriggerKeyOnly "Cls" "m" cfgBothSet 0 "t" rfl
    (by decide) rfl
  exact ⟨h.1, (h.2 evtTriggerT [JsValue.str "t", JsValue.str "s-n"] rfl).1 rfl⟩

/-- Counterexample for C2: a dispatch whose matched handlers are one handler
fulfilling at time 5 and one rejecting at time 1 settles (with the error) at
time 1, strictly before the fulfilling sibling settles at time 5 — so the
error is NOT surfaced "only after every sibling has settled";
`Promise.all` is fail-fast. -/
theorem promiseAllFailFastCounterexample :
    dispatchEvent [⟨"k", handlerFulfillAt5⟩, ⟨"k", handlerRejectAt1⟩] evtScheduledK =
      Except.ok (1, Except.error (JsValue.str "boom")) ∧
    (handlerFulfillAt5 evtScheduledK).1 = 5 ∧ (1 : Nat) < 5 :=
  ⟨rfl, rfl, by decide⟩

/-- Claim C2 (corrected): when at least one matched handler rejects, the
dispatch fails with the earliest rejection, surfaced at the moment that
rejection settles — the rejection time is minimal among all rejections but
the dispatch does not wait for still-running siblings (which are not
cancelled and run to completion). -/
theorem firstRejectionSurfacesImmediately (table : List (EventHandler EventHandlerFn))
    (evt : JsValue) (hs : List EventHandlerFn) (t : Nat) (e : JsValue)
    (hok : handleEvent table evt = Except.ok hs)
    (hrej : firstRejection (hs.map fun h => h evt) = some (t, e)) :
    dispatchEvent table evt = Except.ok (t, Except.error e) ∧
    (∃ x ∈ hs.map fun h => h evt, x.1 = t ∧ x.2 = Except.error e) ∧
    (∀ x ∈ hs.map fun h => h evt, ∀ f : JsValue, x.2 = Except.error f → t ≤ x.1) := by
  refine ⟨?_, firstRejection_mem hrej, firstRejection_min hrej⟩
  simp [dispatchEvent, hok, promiseAll, hrej, Except.map]

/-- Witness for C2 (amended): the concrete two-handler dispatch settles with
the rejection from time 1. -/
theorem firstRejectionSurfacesImmediatelyWitness :
    dispatchEvent [⟨"k", handlerFulfillAt5⟩, ⟨"k", handlerRejectAt1⟩] evtScheduledK =
      Except.ok (1, Except.error (JsValue.str "boom")) :=
  (firstRejectionSurfacesImmediately [⟨"k", handlerFulfillAt5⟩, ⟨"k", handlerRejectAt1⟩]
    evtScheduledK [handlerFulfillAt5, handlerRejectAt1] 1 (JsValue.str "boom")
    rfl rfl).1

/-- Counterexample for C8: a binding with only `triggerName = "a-b"` is
invoked by a table event whose trigger name is `x` (not `a-b`) because the
table-derived candidate key `a-b` of the event collides with the registered key,
so the set of events that invoke a trigger-only binding is NOT exactly those
whose `trigger.name` equals the trigger name. -/
theorem triggerOnlyBindingCollisionCounterexample :
    bindingKey ⟨some "a-b", none⟩ = "a-b" ∧
    getField (getField evtTriggerXTableAB "trigger") "name" = JsValue.str "x" ∧
    ("x" : String) ≠ "a-b" ∧
    handleEvent [(⟨"a-b", 7⟩ : EventHandler Nat)] evtTriggerXTableAB = Except.ok [7] :=
  ⟨rfl, rfl, by decide, rfl⟩

/-- Claim C8 (corrected): the registration key is `triggerName` when set
(truthy), otherwise the table-derived string with schema defaulted to
`public`; and a single registered binding is invoked by exactly the table
events one of whose TWO candidate keys — `trigger?.name` or the
(non-defaulted) `table.schema-table.name` string — equals the key of the
binding. -/
theorem bindingKeyMatchSemantics (t : String) (tm : TableMapping)
    (b : EventHandler Nat) (evt : JsValue) :
    (t ≠ "" → bindingKey ⟨some t, none⟩ = t) ∧
    (bindingKey ⟨none, some tm⟩ =
      (if strTruthy tm.schema then tm.schema.getD "" else "public") ++ "-" ++ tm.name) ∧
    (isHasuraEvent evt = true →
      ((handleEvent [b] evt).isOk = true ↔
        getField (getField evt "trigger") "name" = JsValue.str b.key ∨
        jsToString (getField (getField evt "table") "schema") ++ "-" ++
          jsToString (getField (getField evt "table") "name") = b.key)) := by
  refine ⟨?_, ?_, ?_⟩
  · intro hne; simp [bindingKey, hne]
  · cases hs : tm.schema with
    | none => simp [bindingKey, tableDerivedKey, hs, strTruthy]
    | some s =>
        by_cases hse : s = ""
        · simp [bindingKey, tableDerivedKey, hs, hse, strTruthy]
        · simp [bindingKey, tableDerivedKey, hs, hse, strTruthy]
  · intro hev
    have hc : classifyKeys evt = some [getField (getField evt "trigger") "name",
        JsValue.str (jsToString (getField (getField evt "table") "schema") ++ "-" ++
          jsToString (getField (getField evt "table") "name"))] := by
      simp [classifyKeys, hev]
    rw [handleEvent_singleton_isOk b hc, jsIncludesStr_pair]

/-- Witness for C8 (amended): key formulas on concrete configurations, and
the concrete collision event invokes the trigger-only binding because its
table-derived candidate key equals the registered key. -/
theorem bindingKeyMatchSemanticsWitness :
    bindingKey ⟨some "a-b", none⟩ = "a-b" ∧
    bindingKey ⟨none, some ⟨none, "users"⟩⟩ =
      (if strTruthy (none : Option String) then Option.getD none "" else "public")
        ++ "-" ++ "users" ∧
    ((handleEvent [(⟨"a-b", 7⟩ : EventHandler Nat)] evtTriggerXTableAB).isOk = true ↔
      getField (getField evtTriggerXTableAB "trigger") "name" = JsValue.str "a-b" ∨
      jsToString (getField (getField evtTriggerXTableAB "table") "schema") ++ "-" ++
        jsToString (getField (getField evtTriggerXTableAB "table") "name") = "a-b") := by
  have h := bindingKeyMatchSemantics "a-b" ⟨none, "users"⟩ ⟨"a-b", 7⟩ evtTriggerXTableAB
  exact ⟨h.1 (by decide), h.2.1, h.2.2 rfl⟩

/-- Claim C6 (confirmed): two bindings sharing one routing key both fire on
a single matching event (fan-out), and when every matched handler fulfills,
the aggregated result sequence contains the results of both handlers in
handler-table (registration) order: the result of the earlier-registered
binding precedes that of the later one. -/
theorem sharedKeyFanOutOrdered (l1 l2 l3 : List (EventHandler EventHandlerFn))
    (b1 b2 : EventHandler EventHandlerFn) (evt : JsValue) (keys : List JsValue)
    (v1 v2 : JsValue)
    (hc : classifyKeys evt = some keys)
    (hk : b2.key = b1.key)
    (hin : jsIncludesStr keys b1.key = true)
    (hall : ∀ b ∈ l1 ++ b1 :: l2 ++ b2 :: l3, (b.handler evt).2.isOk = true)
    (h1 : (b1.handler evt).2 = Except.ok v1)
    (h2 : (b2.handler evt).2 = Except.ok v2) :
    dispatchEvent (l1 ++ b1 :: l2 ++ b2 :: l3) evt =
      Except.ok
        (settledTime (((l1 ++ b1 :: l2 ++ b2 :: l3).filter
            fun x => jsIncludesStr keys x.key).map fun b => b.handler evt),
         Except.ok
           (fulfilledValues ((l1.filter fun x => jsIncludesStr keys x.key).map
              fun b => b.handler evt) ++
            v1 :: fulfilledValues ((l2.filter fun x => jsIncludesStr keys x.key).map
              fun b => b.handler evt) ++
            v2 :: fulfilledValues ((l3.filter fun x => jsIncludesStr keys x.key).map
              fun b => b.handler evt))) := by
  have hin2 : jsIncludesStr keys b2.key = true := by rw [hk]; exact hin
  have hfil : (l1 ++ b1 :: l2 ++ b2 :: l3).filter (fun x => jsIncludesStr keys x.key) =
      l1.filter (fun x => jsIncludesStr keys x.key) ++
      b1 :: l2.filter (fun x => jsIncludesStr keys x.key) ++
      b2 :: l3.filter (fun x => jsIncludesStr keys x.key) := by
    simp [List.filter_append, List.filter_cons, hin, hin2]
  have hne : (l1 ++ b1 :: l2 ++ b2 :: l3).filter (fun x => jsIncludesStr keys x.key) ≠ [] := by
    rw [hfil]
    intro hcontra
    obtain ⟨-, h2c⟩ := List.append_eq_nil.mp hcontra
    cases h2c
  have hhe := handleEvent_matched hc hne
  have hnorej : firstRejection (((l1 ++ b1 :: l2 ++ b2 :: l3).filter
      fun x => jsIncludesStr keys x.key).map fun b => b.handler evt) = none := by
    apply firstRejection_eq_none
    intro x hx
    obtain ⟨b, hb, rfl⟩ := List.mem_map.mp hx
    exact hall b (List.mem_filter.mp hb).1
  have hpa : promiseAll (((l1 ++ b1 :: l2 ++ b2 :: l3).filter
      fun x => jsIncludesStr keys x.key).map fun b => b.handler evt) =
      (settledTime (((l1 ++ b1 :: l2 ++ b2 :: l3).filter
          fun x => jsIncludesStr keys x.key).map fun b => b.handler evt),
       Except.ok (fulfilledValues (((l1 ++ b1 :: l2 ++ b2 :: l3).filter
          fun x => jsIncludesStr keys x.key).map fun b => b.handler evt))) := by
    unfold promiseAll
    rw [hnorej]
  have hdecomp : fulfilledValues (((l1 ++ b1 :: l2 ++ b2 :: l3).filter
      fun x => jsIncludesStr keys x.key).map fun b => b.handler evt) =
      fulfilledValues ((l1.filter fun x => jsIncludesStr keys x.key).map
        fun b => b.handler evt) ++
      v1 :: fulfilledValues ((l2.filter fun x => jsIncludesStr keys x.key).map
        fun b => b.handler evt) ++
      v2 :: fulfilledValues ((l3.filter fun x => jsIncludesStr keys x.key).map
        fun b => b.handler evt) := by
    rw [hfil]
    simp only [List.map_append, List.map_cons]
    rw [fulfilledValues_append, fulfilledValues_append,
        fulfilledValues_cons_ok h1, fulfilledValues_cons_ok h2]
  unfold dispatchEvent
  rw [hhe]
  simp only [Except.map, List.map_map, Function.comp_def]
  rw [hpa, hdecomp]

/-- Witness for C6: two bindings on key `k` both fire on the scheduled event
named `k`, results aggregated in registration order. -/
theorem sharedKeyFanOutOrderedWitness :
    dispatchEvent [⟨"k", handlerOne⟩, ⟨"k", handlerTwo⟩] evtScheduledK =
      Except.ok (0, Except.ok [JsValue.num 1, JsValue.num 2]) := by
  have h := sharedKeyFanOutOrdered [] [] [] ⟨"k", handlerOne⟩ ⟨"k", handlerTwo⟩
    evtScheduledK [JsValue.str "k"] (JsValue.num 1) (JsValue.num 2)
    rfl rfl rfl
    (fun b hb => by
      simp only [List.nil_append] at hb
      rcases List.mem_cons.mp hb with rfl | hb2
      · rfl
      · rcases List.mem_cons.mp hb2 with rfl | hb3
        · rfl
        · cases hb3)
    rfl rfl
  exact h

/-- Claim C10 (confirmed): duplicate action-name registrations raise no
startup error (the action build performs no duplicate detection, per the
source TODO) and `new Map(actionHandlers)` keeps the last entry set for a
key, so dispatching that action name invokes the last-registered handler in
the grouped-and-flattened discovery order. -/
theorem duplicateActionNameLastWins (c : String)
    (l1 l2 l3 : List (DiscoveredActionHandler ActionHandlerFn))
    (a1 a2 : DiscoveredActionHandler ActionHandlerFn)
    (action : HasuraAction) (headers : Headers)
    (hcls : ∀ d ∈ l1 ++ a1 :: l2 ++ a2 :: l3, d.parentClassName = c)
    (hdup : a2.actionName = a1.actionName)
    (hlast : ∀ d ∈ l3, d.actionName ≠ a1.actionName)
    (hname : action.action.name = a1.actionName) :
    handleAction (configureHasuraActionHandlers (l1 ++ a1 :: l2 ++ a2 :: l3))
        action headers =
      Except.ok (a2.handler action.input action headers) := by
  have hflat : flattenGrouped (fun d => d.parentClassName) (l1 ++ a1 :: l2 ++ a2 :: l3) =
      l1 ++ a1 :: l2 ++ a2 :: l3 :=
    flattenGrouped_const _ c _
      (by
        intro hcontra
        obtain ⟨-, h2c⟩ := List.append_eq_nil.mp hcontra
        cases h2c)
      hcls
  have hentries : configureHasuraActionHandlers (l1 ++ a1 :: l2 ++ a2 :: l3) =
      (l1.map fun d => (d.actionName, d.handler)) ++
      (a1.actionName, a1.handler) :: (l2.map fun d => (d.actionName, d.handler)) ++
      (a2.actionName, a2.handler) :: (l3.map fun d => (d.actionName, d.handler)) := by
    unfold configureHasuraActionHandlers
    rw [hflat]
    simp [List.map_append, List.map_cons]
  have hget : jsMapGet (configureHasuraActionHandlers (l1 ++ a1 :: l2 ++ a2 :: l3))
      a1.actionName = some a2.handler := by
    rw [hentries, hdup]
    apply jsMapGet_last
    intro e he
    obtain ⟨d, hd, rfl⟩ := List.mem_map.mp he
    exact hlast d hd
  unfold handleAction
  rw [hname, hget]

/-- Witness for C10: two same-class handlers registered under the action
name `act`; dispatch returns the result of the second handler. -/
theorem duplicateActionNameLastWinsWitness :
    handleAction (configureHasuraActionHandlers
        [⟨"C", "m1", "act", actionHandlerOne⟩, ⟨"C", "m2", "act", actionHandlerTwo⟩])
      ⟨⟨"act"⟩, JsValue.null⟩ [] =
      Except.ok (actionHandlerTwo JsValue.null ⟨⟨"act"⟩, JsValue.null⟩ []) := by
  have h := duplicateActionNameLastWins "C" [] [] []
    ⟨"C", "m1", "act", actionHandlerOne⟩ ⟨"C", "m2", "act", actionHandlerTwo⟩
    ⟨⟨"act"⟩, JsValue.null⟩ []
    (fun d hd => by
      simp only [List.nil_append] at hd
      rcases List.mem_cons.mp hd with rfl | hd2
      · rfl
      · rcases List.mem_cons.mp hd2 with rfl | hd3
        · rfl
        · cases hd3)
    rfl (fun d hd => by cases hd) rfl
  exact h

end Hasura
